import Mathlib

/-!
Verification of `simple_example.py` from the tensortrade repository, together
with the scoped-configuration ("TradingContext") mechanism that the demo
script exercises.  The registry/component mechanism itself is not part of the
shipped source file (only its caller is), so it is modelled from the
specification; the demo script's own functions (`generate_sample_data`,
`create_trading_environment`, `run_simple_episode`, the `__main__` block) are
translated from the source.
-/

namespace TensorTrade

/-- Configuration values appearing in the demo configuration: strings
(e.g. "bsh"), small integers (precisions) and instrument tags (USD, BTC). -/
inductive Val
  | str (s : String)
  | nat (n : Nat)
  | instr (sym : String)
deriving DecidableEq

/-- An option mapping: `mapping<string, value>` from the spec, realised as an
association list (first binding of a key wins, as in a Python dict built
left-to-right with distinct keys). -/
abbrev CMap := List (String × Val)

/-- A raw configuration entry is either a bare value (like `"actions": "bsh"`)
or a nested option mapping (like the `"shared"` block). -/
inductive RawVal
  | leaf (v : Val)
  | table (m : CMap)
deriving DecidableEq

/-- A raw configuration as passed to `enter` / `TradingContext(config)`:
a mapping possibly containing the reserved `shared` key. -/
abbrev RawConfig := List (String × RawVal)

/-- The option mapping carried by a raw entry; a bare value carries none. -/
def rawTable : RawVal → CMap
  | .leaf _ => []
  | .table m => m

/-- Modelled from the spec: `ConfigScope` (§3) — `categoryConfigs`, a mapping
from component-category name to option mapping, plus a `shared` sub-mapping
visible to all categories. -/
structure ConfigScope where
  categoryConfigs : List (String × CMap)
  shared : CMap
deriving DecidableEq

/-- The shared sub-mapping of a raw configuration: `cfg["shared"] or {}`. -/
def sharedOf (cfg : RawConfig) : CMap :=
  match cfg.lookup "shared" with
  | some rv => rawTable rv
  | none => []

/-- The category sub-mapping of a raw configuration, `cfg[C] or {}`
(the reserved `shared` key is never a category). -/
def categoryOf (cfg : RawConfig) (c : String) : CMap :=
  if c = "shared" then []
  else
    match cfg.lookup c with
    | some rv => rawTable rv
    | none => []

/-- Merge of an option mapping with shared defaults: category entries take
precedence, shared entries fill in the rest. -/
def mergeC (primary defaults : CMap) : CMap :=
  primary ++ defaults.filter (fun kv => (primary.lookup kv.1).isNone)

/-- Modelled from the spec: building a `ConfigScope` from a raw configuration
(§4.1 `enter(config)`): the `shared` key becomes the shared sub-mapping and
every other key becomes a category entry carrying its option mapping. -/
def mkScope (cfg : RawConfig) : ConfigScope :=
  { categoryConfigs :=
      cfg.filterMap (fun kv =>
        if kv.1 = "shared" then none else some (kv.1, rawTable kv.2))
    shared := sharedOf cfg }

/-- Modelled from the spec: the process-wide stack of active scopes (§3);
only the head (top of the stack) is current. -/
abbrev Registry := List ConfigScope

/-- Errors of the mechanism (§7): `ConfigurationUnavailable` when a component
is constructed with no active scope, `ScopeImbalance` when `exit()` is called
with no matching `enter()`. -/
inductive CtxError
  | configurationUnavailable
  | scopeImbalance
deriving DecidableEq

/-- Modelled from the spec: `enter(config)` pushes a new `ConfigScope` built
from `config` onto the process-wide stack (§4.1). -/
def enter (cfg : RawConfig) (st : Registry) : Registry :=
  mkScope cfg :: st

/-- Modelled from the spec: `exit()` pops the top scope (§4.1); calling it
with no matching `enter()` signals `ScopeImbalance` (§7). -/
def exitScope : Registry → Except CtxError Registry
  | [] => .error .scopeImbalance
  | _ :: rest => .ok rest

/-- Modelled from the spec: `currentFor(category)` returns the category's
config merged with `shared` from the top-of-stack scope, or signals
"no active scope" if the stack is empty (§4.1). -/
def currentFor (c : String) : Registry → Option CMap
  | [] => none
  | s :: _ => some (mergeC ((s.categoryConfigs.lookup c).getD []) s.shared)

/-- Modelled from the spec: an injectable component (§3, §4.2): a category tag
and the configuration captured at construction. -/
structure Component where
  category : String
  resolvedConfig : CMap
deriving DecidableEq

/-- Modelled from the spec: construction of a component of category `c`
(§4.2): call `currentFor(c)`; with no active scope fail with
`ConfigurationUnavailable`, otherwise capture the mapping as
`resolvedConfig`. -/
def construct (c : String) (st : Registry) : Except CtxError Component :=
  match currentFor c st with
  | none => .error .configurationUnavailable
  | some m => .ok ⟨c, m⟩

/-- Modelled from the spec: `get(key, default)` reads from `resolvedConfig`
(§4.2); pure, and in particular it takes no registry argument, so a component
never re-reads the registry after construction. -/
def Component.get (comp : Component) (key : String) (d : Val) : Val :=
  (comp.resolvedConfig.lookup key).getD d

/-- The demo configuration of `create_trading_environment`
(src/simple_example.py lines 78-86). -/
def demoConfig : RawConfig :=
  [("actions", .leaf (.str "bsh")),
   ("rewards", .leaf (.str "pbr")),
   ("shared", .table
      [("base_instrument", .instr "USD"),
       ("base_precision", .nat 2),
       ("instrument_precision", .nat 8)])]

theorem lookup_str_cons_eq {β : Type} (c : String) (v : β) (l : List (String × β)) :
    List.lookup c ((c, v) :: l) = some v := by
  simp [List.lookup_cons]

theorem lookup_str_cons_ne {β : Type} {c k : String} (h : c ≠ k) (v : β)
    (l : List (String × β)) :
    List.lookup c ((k, v) :: l) = List.lookup c l := by
  simp [List.lookup_cons, beq_false_of_ne h]

theorem lookup_mkScope (cfg : RawConfig) (c : String) :
    (((mkScope cfg).categoryConfigs.lookup c).getD []) = categoryOf cfg c := by
  induction cfg with
  | nil =>
    simp [mkScope, categoryOf]
  | cons kv rest ih =>
    obtain ⟨k, v⟩ := kv
    by_cases hk : k = "shared"
    · subst hk
      have hfm : (mkScope (("shared", v) :: rest)).categoryConfigs
          = (mkScope rest).categoryConfigs := by
        simp [mkScope, List.filterMap_cons]
      rw [hfm, ih]
      by_cases hc : c = "shared"
      · simp [categoryOf, hc]
      · simp only [categoryOf, if_neg hc, lookup_str_cons_ne hc]
    · have hfm : (mkScope ((k, v) :: rest)).categoryConfigs
          = (k, rawTable v) :: (mkScope rest).categoryConfigs := by
        simp [mkScope, List.filterMap_cons, hk]
      rw [hfm]
      by_cases hc : c = k
      · subst hc
        simp only [categoryOf, if_neg hk, lookup_str_cons_eq]
        rfl
      · rw [lookup_str_cons_ne hc, ih]
        by_cases hcs : c = "shared"
        · simp [categoryOf, hcs]
        · simp only [categoryOf, if_neg hcs, lookup_str_cons_ne hc]

theorem currentFor_enter (c : String) (cfg : RawConfig) (st : Registry) :
    currentFor c (enter cfg st)
      = some (mergeC (categoryOf cfg c) (sharedOf cfg)) := by
  show some (mergeC (((mkScope cfg).categoryConfigs.lookup c).getD [])
        (mkScope cfg).shared) = _
  rw [lookup_mkScope]
  rfl

theorem construct_enter (c : String) (cfg : RawConfig) (st : Registry) :
    construct c (enter cfg st)
      = .ok ⟨c, mergeC (categoryOf cfg c) (sharedOf cfg)⟩ := by
  simp [construct, currentFor_enter]

/-- Python `with TradingContext(config):` block semantics (scoped acquisition,
src/simple_example.py lines 88-94): enter the scope, run the body, and pop the
scope before returning on every exit path — both when the body returns
normally and when it raises an error. -/
def withScope {ε α : Type} (cfg : RawConfig) (body : Registry → Except ε α)
    (st : Registry) : Except ε α × Registry :=
  let entered := enter cfg st
  let result := body entered
  match exitScope entered with
  | .ok st2 => (result, st2)
  | .error _ => (result, entered)

/-- Construction inside a scope followed by scope exit: the component outlives
the scope, keeping the configuration resolved at construction time. -/
def constructThenExit (cfg : RawConfig) (c : String) (st : Registry) :
    Except CtxError Component × Registry :=
  withScope cfg (fun s => construct c s) st

/-- Claim C1: for every component category and configuration mapping, a
component constructed between `enter(cfg)` and the matching `exit()` captures
`resolvedConfig` equal to the merge of `cfg[C]` (or the empty mapping) with
`cfg["shared"]` (or the empty mapping); in particular, for the demo's config,
a component constructed inside the TradingContext scope sees its category's
options together with the shared entries `base_instrument`, `base_precision`
and `instrument_precision`. -/
theorem resolvedConfig_merge_of_scope :
    (∀ (c : String) (cfg : RawConfig) (st : Registry),
        construct c (enter cfg st)
          = .ok ⟨c, mergeC (categoryOf cfg c) (sharedOf cfg)⟩)
    ∧ (Except.map
         (fun comp => (comp.get "base_instrument" (.str "missing"),
                       comp.get "base_precision" (.str "missing"),
                       comp.get "instrument_precision" (.str "missing")))
         (construct "actions" (enter demoConfig []))
        = .ok (.instr "USD", .nat 2, .nat 8)) := by
  refine ⟨fun c cfg st => construct_enter c cfg st, ?_⟩
  rfl

/-- Claim C2: constructing any injectable component while the scope stack is
empty fails with the `ConfigurationUnavailable` error, surfaced directly as
the construction result. -/
theorem construct_outside_scope_fails :
    ∀ (c : String),
      construct c ([] : Registry) = .error .configurationUnavailable :=
  fun _ => rfl

/-- Claim C3: every scope entry is matched by exactly one scope exit on every
exit path: whatever the body does, the registry returned by the scoped block
is exactly the registry from before the entry (the pushed scope was popped
once), also when the body raises; in particular the demo's scope, entered
around `create`, is exited even when `create` raises. -/
theorem scope_exit_exception_safe :
    (∀ (ε α : Type) (cfg : RawConfig) (body : Registry → Except ε α)
        (st : Registry), (withScope cfg body st).2 = st)
    ∧ (∀ (ε α : Type) (cfg : RawConfig) (st : Registry) (e : ε),
        withScope cfg (fun _ => (.error e : Except ε α)) st = (.error e, st))
    ∧ (withScope demoConfig
         (fun _ => (.error "create raised" : Except String Component))
         []).2 = ([] : Registry) :=
  ⟨fun _ _ _ _ _ => rfl, fun _ _ _ _ _ => rfl, rfl⟩

/-- Claim C4: entering scope B inside scope A and constructing a component
resolves entirely from B's data (full shadowing — A's category data is not
consulted); after exiting B, a subsequent construction resolves from A's data
again. -/
theorem nested_scope_shadowing :
    ∀ (a b : RawConfig) (c : String) (st : Registry),
      construct c (enter b (enter a st))
          = .ok ⟨c, mergeC (categoryOf b c) (sharedOf b)⟩
      ∧ exitScope (enter b (enter a st)) = .ok (enter a st)
      ∧ construct c (enter a st)
          = .ok ⟨c, mergeC (categoryOf a c) (sharedOf a)⟩ :=
  fun a b c st =>
    ⟨construct_enter c b (enter a st), rfl, construct_enter c a st⟩

/-- Claim C5: `resolvedConfig` is captured exactly once at construction and
never re-read from the registry: constructing inside a scope and exiting
yields a component whose configuration is the resolution at construction
time, while the registry returns to its prior state; `Component.get` takes no
registry argument, so the component stays usable (demo conjunct) after the
scope has been exited. -/
theorem resolvedConfig_fixed_after_exit :
    (∀ (cfg : RawConfig) (c : String) (st : Registry),
        constructThenExit cfg c st
          = (.ok ⟨c, mergeC (categoryOf cfg c) (sharedOf cfg)⟩, st))
    ∧ (∀ (cfg : RawConfig) (c key : String) (st : Registry) (d : Val),
        Except.map (fun comp => comp.get key d) (constructThenExit cfg c st).1
          = .ok (((mergeC (categoryOf cfg c) (sharedOf cfg)).lookup key).getD d))
    ∧ (Except.map (fun comp => comp.get "base_precision" (.str "missing"))
         (constructThenExit demoConfig "actions" []).1 = .ok (.nat 2)) := by
  have hmain : ∀ (cfg : RawConfig) (c : String) (st : Registry),
      constructThenExit cfg c st
        = (.ok ⟨c, mergeC (categoryOf cfg c) (sharedOf cfg)⟩, st) := by
    intro cfg c st
    show (construct c (enter cfg st), st) = _
    rw [construct_enter]
  refine ⟨hmain, ?_, ?_⟩
  · intro cfg c key st d
    rw [hmain]
    rfl
  · rfl

/-- The gym-style environment surface consumed by the demo (spec §6):
`reset() -> (observation, info)`, `step(action) -> (observation, reward,
terminated, truncated, info)` and `action_space.sample()`, together with
further capabilities a gym environment carries but the demo never calls
(`render`, `close`).  `σ` is the hidden environment state threaded through
every call; rewards are modelled as integers. -/
structure GymEnv (σ Obs Act Info : Type) where
  reset : σ → (Obs × Info) × σ
  step : Act → σ → (Obs × Int × Bool × Bool × Info) × σ
  sample : σ → Act × σ
  render : σ → σ
  close : σ → σ

/-- The `while not done` episode loop of `run_simple_episode`
(src/simple_example.py lines 115-133): sample a fresh random action, step the
environment, set `done := terminated or truncated`, accumulate the reward and
the step count; `fuel` bounds the unrolling, `none` meaning the loop has not
finished within `fuel` iterations. -/
def episodeLoop {σ Obs Act Info : Type} (env : GymEnv σ Obs Act Info) :
    Nat → σ → Nat → Int → Option (Nat × Int × σ)
  | 0, _, _, _ => none
  | fuel + 1, s, stepCount, totalReward =>
    let (action, s1) := env.sample s
    let ((_, reward, terminated, truncated, _), s2) := env.step action s1
    let done := terminated || truncated
    if done then some (stepCount + 1, totalReward + reward, s2)
    else episodeLoop env fuel s2 (stepCount + 1) (totalReward + reward)

/-- The environment interaction of `run_simple_episode` (src/simple_example.py
lines 112-133): unpack `reset()` as `(observation, info)`, then run the
episode loop starting from step count 0 and total reward 0. -/
def runEpisode {σ Obs Act Info : Type} (env : GymEnv σ Obs Act Info)
    (fuel : Nat) (s : σ) : Option (Nat × Int × σ) :=
  let ((_observation, _info), s1) := env.reset s
  episodeLoop env fuel s1 0 0

/-- The environment state after one loop iteration (sample then step). -/
def nextIter {σ Obs Act Info : Type} (env : GymEnv σ Obs Act Info)
    (s : σ) : σ :=
  let (action, s1) := env.sample s
  (env.step action s1).2

/-- Whether the loop iteration starting at state `s` reports
`terminated or truncated`. -/
def iterDone {σ Obs Act Info : Type} (env : GymEnv σ Obs Act Info)
    (s : σ) : Bool :=
  let (action, s1) := env.sample s
  let ((_, _, terminated, truncated, _), _) := env.step action s1
  terminated || truncated

/-- The reward of the loop iteration starting at state `s`. -/
def iterReward {σ Obs Act Info : Type} (env : GymEnv σ Obs Act Info)
    (s : σ) : Int :=
  let (action, s1) := env.sample s
  let ((_, reward, _, _, _), _) := env.step action s1
  reward

/-- The environment state after `n` loop iterations. -/
def iterState {σ Obs Act Info : Type} (env : GymEnv σ Obs Act Info)
    (s : σ) : Nat → σ
  | 0 => s
  | n + 1 => iterState env (nextIter env s) n

/-- Total reward accumulated over the first `n` loop iterations. -/
def sumRewards {σ Obs Act Info : Type} (env : GymEnv σ Obs Act Info)
    (s : σ) : Nat → Int
  | 0 => 0
  | n + 1 => iterReward env s + sumRewards env (nextIter env s) n

theorem episodeLoop_succ {σ Obs Act Info : Type} (env : GymEnv σ Obs Act Info)
    (fuel : Nat) (s : σ) (c : Nat) (t : Int) :
    episodeLoop env (fuel + 1) s c t
      = if iterDone env s then
          some (c + 1, t + iterReward env s, nextIter env s)
        else episodeLoop env fuel (nextIter env s) (c + 1)
          (t + iterReward env s) := by
  rcases h1 : env.sample s with ⟨a, s1⟩
  rcases h2 : env.step a s1 with ⟨⟨obs, r, term, trunc, info⟩, s2⟩
  simp [episodeLoop, iterDone, iterReward, nextIter, h1, h2]

theorem iterState_succ {σ Obs Act Info : Type} (env : GymEnv σ Obs Act Info)
    (s : σ) (n : Nat) :
    iterState env s (n + 1) = iterState env (nextIter env s) n := rfl

theorem sumRewards_succ {σ Obs Act Info : Type} (env : GymEnv σ Obs Act Info)
    (s : σ) (n : Nat) :
    sumRewards env s (n + 1)
      = iterReward env s + sumRewards env (nextIter env s) n := rfl

theorem episodeLoop_first_done {σ Obs Act Info : Type}
    (env : GymEnv σ Obs Act Info) :
    ∀ (n : Nat) (s : σ) (c : Nat) (t : Int),
      (∀ j, j < n → iterDone env (iterState env s j) = false) →
      iterDone env (iterState env s n) = true →
      episodeLoop env (n + 1) s c t
        = some (c + n + 1, t + sumRewards env s (n + 1),
                iterState env s (n + 1)) := by
  intro n
  induction n with
  | zero =>
    intro s c t _ hdone
    have h0 : iterDone env s = true := by
      simpa [iterState] using hdone
    rw [episodeLoop_succ]
    simp [h0, sumRewards_succ, iterState_succ, iterState, sumRewards]
  | succ m ih =>
    intro s c t hprev hdone
    have h0 : iterDone env s = false := by
      simpa [iterState] using hprev 0 (Nat.succ_pos m)
    have hprev2 : ∀ j, j < m →
        iterDone env (iterState env (nextIter env s) j) = false := by
      intro j hj
      have := hprev (j + 1) (Nat.succ_lt_succ hj)
      simpa [iterState_succ] using this
    have hdone2 : iterDone env (iterState env (nextIter env s) m) = true := by
      simpa [iterState_succ] using hdone
    rw [episodeLoop_succ]
    simp only [h0, Bool.false_eq_true, if_false]
    rw [ih (nextIter env s) (c + 1) (t + iterReward env s) hprev2 hdone2]
    rw [iterState_succ env s (m + 1), sumRewards_succ env s (m + 1)]
    simp only [Option.some.injEq, Prod.mk.injEq]
    exact ⟨by omega, by ring, trivial⟩

/-- A small concrete environment used to exercise the episode-loop theorems:
the state counts steps, the third step reports `terminated`. -/
def toyEnv : GymEnv Nat Nat Nat Nat where
  reset := fun _ => ((0, 0), 0)
  step := fun _ s => ((s, 1, decide (2 ≤ s), false, 0), s + 1)
  sample := fun s => (0, s)
  render := fun s => s
  close := fun s => s

/-- A copy of `toyEnv` with a different unused capability (`render`), agreeing with
`toyEnv` on `reset`, `step` and `sample`. -/
def toyEnvAlt : GymEnv Nat Nat Nat Nat :=
  { toyEnv with render := fun s => s + 1 }

/-- Claim C8: the episode loop steps the environment with a freshly sampled
action each iteration and returns at exactly the first iteration whose step
reports terminated or truncated: if iteration `n` is the first done iteration
then the loop terminates with step count `n + 1`, having accumulated the
rewards of iterations `0..n`. -/
theorem episode_terminates_at_first_done :
    ∀ (σ Obs Act Info : Type) (env : GymEnv σ Obs Act Info) (s : σ) (n : Nat),
      (∀ j, j < n → iterDone env (iterState env s j) = false) →
      iterDone env (iterState env s n) = true →
      episodeLoop env (n + 1) s 0 0
        = some (n + 1, sumRewards env s (n + 1), iterState env s (n + 1)) := by
  intro σ Obs Act Info env s n hprev hdone
  have h := episodeLoop_first_done env n s 0 0 hprev hdone
  simpa using h

/-- Witness for C8 at the concrete environment `toyEnv`: starting at state 0,
the first done iteration is iteration 2 and the loop stops after 3 steps. -/
theorem episode_terminates_at_first_done_witness :
    (∀ j, j < 2 → iterDone toyEnv (iterState toyEnv 0 j) = false)
    ∧ iterDone toyEnv (iterState toyEnv 0 2) = true
    ∧ episodeLoop toyEnv 3 0 0 0
        = some (3, sumRewards toyEnv 0 3, iterState toyEnv 0 3) :=
  ⟨by decide, by decide,
   episode_terminates_at_first_done Nat Nat Nat Nat toyEnv 0 2
     (by decide) (by decide)⟩

theorem episodeLoop_congr {σ Obs Act Info : Type}
    (e1 e2 : GymEnv σ Obs Act Info)
    (hstep : e1.step = e2.step) (hsample : e1.sample = e2.sample) :
    ∀ (fuel : Nat) (s : σ) (c : Nat) (t : Int),
      episodeLoop e1 fuel s c t = episodeLoop e2 fuel s c t := by
  intro fuel
  induction fuel with
  | zero => intro s c t; rfl
  | succ m ih =>
    intro s c t
    have hd : iterDone e1 s = iterDone e2 s := by
      simp [iterDone, hstep, hsample]
    have hnext : nextIter e1 s = nextIter e2 s := by
      simp [nextIter, hstep, hsample]
    have hrew : iterReward e1 s = iterReward e2 s := by
      simp [iterReward, hstep, hsample]
    rw [episodeLoop_succ, episodeLoop_succ, hd, hnext, hrew, ih]

/-- Claim C7: the demonstration consumes the environment exactly through the
gym-style interface `reset` / `step` / `sample` with the stated tuple shapes:
two environments agreeing on those three capabilities (but possibly differing
elsewhere, e.g. in `render`) give identical episode runs. -/
theorem episode_uses_gym_interface_only :
    ∀ (σ Obs Act Info : Type) (e1 e2 : GymEnv σ Obs Act Info)
      (fuel : Nat) (s : σ),
      e1.reset = e2.reset → e1.step = e2.step → e1.sample = e2.sample →
      runEpisode e1 fuel s = runEpisode e2 fuel s := by
  intro σ Obs Act Info e1 e2 fuel s hreset hstep hsample
  show episodeLoop e1 fuel (e1.reset s).2 0 0
      = episodeLoop e2 fuel (e2.reset s).2 0 0
  rw [hreset]
  exact episodeLoop_congr e1 e2 hstep hsample fuel (e2.reset s).2 0 0

/-- Witness for C7: `toyEnv` and `toyEnvAlt` differ in `render` but agree on
`reset`, `step` and `sample`, so their episode runs coincide. -/
theorem episode_uses_gym_interface_only_witness :
    toyEnv.reset = toyEnvAlt.reset ∧ toyEnv.step = toyEnvAlt.step
    ∧ toyEnv.sample = toyEnvAlt.sample
    ∧ runEpisode toyEnv 5 0 = runEpisode toyEnvAlt 5 0 :=
  ⟨rfl, rfl, rfl,
   episode_uses_gym_interface_only Nat Nat Nat Nat toyEnv toyEnvAlt 5 0
     rfl rfl rfl⟩

/-- Failure kinds visible to the demo: the two registry errors (spec §7) and
every other failure (e.g. an environment error during the run). -/
inductive DemoError
  | configurationUnavailable
  | scopeImbalance
  | envFailure (msg : String)
deriving DecidableEq

/-- The function `run_simple_episode` as an error pipeline (src/simple_example.py lines
99-144): create the environment, run the episode, return the environment; the
function contains no try/except, so any error from either stage propagates to
the caller unchanged. -/
def run_simple_episode {Env : Type} (createEnv : Except DemoError Env)
    (episode : Env → Except DemoError (Nat × Int)) : Except DemoError Env := do
  let env ← createEnv
  let _ ← episode env
  pure env

/-- Outcome of the process: exit code and the error logged (printed with a
traceback), if any. -/
structure ProcOutcome where
  exitCode : Nat
  logged : Option DemoError
deriving DecidableEq

/-- The `__main__` block (src/simple_example.py lines 147-155): run the demo
once under a single try/except; on success exit 0 with nothing logged, on any
error log it and call `sys.exit(1)`.  The demo is run exactly once — no
retry. -/
def mainBlock {Env : Type} (run : Except DemoError Env) : ProcOutcome :=
  match run with
  | .ok _ => ⟨0, none⟩
  | .error e => ⟨1, some e⟩

/-- Claim C6: every failure other than ConfigurationUnavailable and
ScopeImbalance propagates uncaught through `run_simple_episode` and is caught
only at the top-level entry point, where it is logged and turns into exit
code 1; a successful run exits 0 with nothing logged, and no retry or
recovery is performed. -/
theorem top_level_error_handling :
    ∀ (e : DemoError),
      e ≠ .configurationUnavailable →
      e ≠ .scopeImbalance →
      (∀ (episode : Unit → Except DemoError (Nat × Int)),
          run_simple_episode (Except.error e) episode = .error e
          ∧ mainBlock (run_simple_episode (Except.error e) episode)
              = ⟨1, some e⟩)
      ∧ (mainBlock (run_simple_episode (Except.ok ())
            (fun _ => .error e)) = ⟨1, some e⟩)
      ∧ (mainBlock (Except.ok ()) = ⟨0, none⟩) :=
  fun _ _ _ => ⟨fun _ => ⟨rfl, rfl⟩, rfl, rfl⟩

/-- Witness for C6 at the concrete failure `envFailure "boom"`. -/
theorem top_level_error_handling_witness :
    (DemoError.envFailure "boom" ≠ DemoError.configurationUnavailable)
    ∧ (DemoError.envFailure "boom" ≠ DemoError.scopeImbalance)
    ∧ mainBlock (run_simple_episode (Except.ok ())
        (fun _ => .error (DemoError.envFailure "boom"))) =
        ⟨1, some (DemoError.envFailure "boom")⟩ :=
  ⟨by decide, by decide,
   (top_level_error_handling (DemoError.envFailure "boom")
      (by decide) (by decide)).2.1⟩

/-- State of the process-wide numpy random generator, modelled as a 64-bit
word.  The draws below are a deterministic stand-in for numpy's samplers:
like numpy's seeded legacy generator, every draw is a function of the current
state only. -/
structure RngState where
  state : Nat
deriving DecidableEq

/-- One step of the generator: a 64-bit linear congruential update. -/
def lcgNext (s : Nat) : Nat :=
  (6364136223846793005 * s + 1442695040888963407) % 2 ^ 64

/-- Model of `np.random.seed(seed)`: reinitialise the global generator from `seed`,
discarding the previous state. -/
def npSeed (seed : Nat) (_g : RngState) : RngState :=
  ⟨lcgNext seed⟩

/-- Draw a raw word and advance the generator. -/
def nextRaw (g : RngState) : Nat × RngState :=
  (g.state, ⟨lcgNext g.state⟩)

/-- One draw from `np.random.normal(mu, sigma)`: `mu + sigma * z` where `z`
is a state-determined rational in [-3, 3] standing in for a standard-normal
sample. -/
def normalDraw (mu sigma : ℚ) (g : RngState) : ℚ × RngState :=
  let d := nextRaw g
  (mu + sigma * ((((d.1 % 6001 : Nat) : ℚ) - 3000) / 1000), d.2)

/-- Model of `np.random.normal(mu, sigma, n)`: a vector of `n` draws. -/
def normalVec (mu sigma : ℚ) : Nat → RngState → List ℚ × RngState
  | 0, g => ([], g)
  | n + 1, g =>
    let d := normalDraw mu sigma g
    let rest := normalVec mu sigma n d.2
    (d.1 :: rest.1, rest.2)

/-- Model of `np.random.randint(lo, hi, n)`: a vector of `n` integers in [lo, hi). -/
def randintVec (lo hi : Nat) : Nat → RngState → List Nat × RngState
  | 0, g => ([], g)
  | n + 1, g =>
    let d := nextRaw g
    let rest := randintVec lo hi n d.2
    ((lo + d.1 % (hi - lo)) :: rest.1, rest.2)

/-- The price path `acc * (1 + returns).cumprod()`: the running product of `1 + r` scaled by
the initial price. -/
def cumprodPrice (acc : ℚ) : List ℚ → List ℚ
  | [] => []
  | r :: rs => (acc * (1 + r)) :: cumprodPrice (acc * (1 + r)) rs

/-- The data frame built by `generate_sample_data`, one list per column
(`open` is a Lean keyword, hence `open_px`). -/
structure Frame where
  date : List Nat
  open_px : List ℚ
  high : List ℚ
  low : List ℚ
  close : List ℚ
  volume : List Nat
deriving DecidableEq

/-- Translation of `generate_sample_data` (src/simple_example.py lines 26-43): reseed the
global generator with 42, draw hourly returns `normal(0.001, 0.02, n)`, form
the close-price path `20000 * (1 + returns).cumprod()`, then the `open`
column as price plus `normal(0, 50, n)` noise, `high` as price plus the
absolute value of `normal(50, 50, n)`, `low` as price minus the absolute
value of `normal(50, 50, n)`, and a `volume` column `randint(100, 1000, n)`;
dates are the `n` hourly offsets from the fixed start. -/
def generate_sample_data (n_steps : Nat) (g0 : RngState) : Frame × RngState :=
  let dates := List.range n_steps
  let g1 := npSeed 42 g0
  let returnsD := normalVec (1 / 1000) (2 / 100) n_steps g1
  let price := cumprodPrice 20000 returnsD.1
  let openD := normalVec 0 50 n_steps returnsD.2
  let highD := normalVec 50 50 n_steps openD.2
  let lowD := normalVec 50 50 n_steps highD.2
  let volD := randintVec 100 1000 n_steps lowD.2
  (⟨dates,
    List.zipWith (fun p x => p + x) price openD.1,
    List.zipWith (fun p x => p + |x|) price highD.1,
    List.zipWith (fun p x => p - |x|) price lowD.1,
    price,
    volD.1⟩, volD.2)

/-- Claim C9: `generate_sample_data` is deterministic across runs — because
it reseeds the global generator with the fixed seed 42 on every call, its
result does not depend on the incoming generator state, so any two calls with
the same `n_steps` return identical frames (and leave identical generator
states). -/
theorem generate_sample_data_deterministic :
    ∀ (n_steps : Nat) (g1 g2 : RngState),
      generate_sample_data n_steps g1 = generate_sample_data n_steps g2 :=
  fun _ _ _ => rfl

theorem normalVec_length (mu sigma : ℚ) :
    ∀ (n : Nat) (g : RngState), (normalVec mu sigma n g).1.length = n := by
  intro n
  induction n with
  | zero => intro g; rfl
  | succ m ih => intro g; simp [normalVec, ih]

theorem randintVec_length (lo hi : Nat) :
    ∀ (n : Nat) (g : RngState), (randintVec lo hi n g).1.length = n := by
  intro n
  induction n with
  | zero => intro g; rfl
  | succ m ih => intro g; simp [randintVec, ih]

theorem cumprodPrice_length :
    ∀ (rs : List ℚ) (acc : ℚ), (cumprodPrice acc rs).length = rs.length := by
  intro rs
  induction rs with
  | nil => intro acc; rfl
  | cons r rest ih => intro acc; simp [cumprodPrice, ih]

theorem getD_zipWith (f : ℚ → ℚ → ℚ) :
    ∀ (as bs : List ℚ) (i : Nat), i < as.length → i < bs.length →
      (List.zipWith f as bs).getD i 0 = f (as.getD i 0) (bs.getD i 0) := by
  intro as
  induction as with
  | nil => intro bs i h1 _; simp at h1
  | cons a rest ih =>
    intro bs i h1 h2
    cases bs with
    | nil => simp at h2
    | cons b brest =>
      cases i with
      | zero => rfl
      | succ j =>
        simp only [List.zipWith_cons_cons, List.getD_cons_succ]
        exact ih brest j (by simpa using h1) (by simpa using h2)

/-- Claim C10: for every `n_steps ≥ 1`, `generate_sample_data` returns a
frame with exactly `n_steps` rows (every column has length `n_steps`) in
which every row satisfies `low ≤ close ≤ high`: the high column adds a
non-negative absolute offset to the close price and the low column subtracts
one. -/
theorem generate_sample_data_bounds :
    ∀ (n_steps : Nat) (g : RngState), 1 ≤ n_steps →
      ((generate_sample_data n_steps g).1.date.length = n_steps
       ∧ (generate_sample_data n_steps g).1.open_px.length = n_steps
       ∧ (generate_sample_data n_steps g).1.high.length = n_steps
       ∧ (generate_sample_data n_steps g).1.low.length = n_steps
       ∧ (generate_sample_data n_steps g).1.close.length = n_steps
       ∧ (generate_sample_data n_steps g).1.volume.length = n_steps)
      ∧ (∀ i, i < n_steps →
          (generate_sample_data n_steps g).1.low.getD i 0
            ≤ (generate_sample_data n_steps g).1.close.getD i 0
          ∧ (generate_sample_data n_steps g).1.close.getD i 0
            ≤ (generate_sample_data n_steps g).1.high.getD i 0) := by
  intro n g _
  simp only [generate_sample_data]
  set gA := npSeed 42 g with hgA
  set returnsD := normalVec (1 / 1000) (2 / 100) n gA with hret
  set price := cumprodPrice 20000 returnsD.1 with hprice
  set openD := normalVec 0 50 n returnsD.2 with hopen
  set highD := normalVec 50 50 n openD.2 with hhigh
  set lowD := normalVec 50 50 n highD.2 with hlow
  set volD := randintVec 100 1000 n lowD.2 with hvol
  have hplen : price.length = n := by
    rw [hprice, cumprodPrice_length, hret, normalVec_length]
  have holen : openD.1.length = n := by rw [hopen, normalVec_length]
  have hhlen : highD.1.length = n := by rw [hhigh, normalVec_length]
  have hllen : lowD.1.length = n := by rw [hlow, normalVec_length]
  have hvlen : volD.1.length = n := by rw [hvol, randintVec_length]
  constructor
  · refine ⟨by simp, ?_, ?_, ?_, hplen, hvlen⟩
    · simp [List.length_zipWith, hplen, holen]
    · simp [List.length_zipWith, hplen, hhlen]
    · simp [List.length_zipWith, hplen, hllen]
  · intro i hi
    have hiP : i < price.length := by rw [hplen]; exact hi
    have hiH : i < highD.1.length := by rw [hhlen]; exact hi
    have hiL : i < lowD.1.length := by rw [hllen]; exact hi
    have eqLow : (List.zipWith (fun p x => p - |x|) price lowD.1).getD i 0
        = price.getD i 0 - |lowD.1.getD i 0| :=
      getD_zipWith (fun p x => p - |x|) price lowD.1 i hiP hiL
    have eqHigh : (List.zipWith (fun p x => p + |x|) price highD.1).getD i 0
        = price.getD i 0 + |highD.1.getD i 0| :=
      getD_zipWith (fun p x => p + |x|) price highD.1 i hiP hiH
    constructor
    · rw [eqLow]
      exact sub_le_self _ (abs_nonneg _)
    · rw [eqHigh]
      exact le_add_of_nonneg_right (abs_nonneg _)

/-- Witness for C10 at `n_steps = 1` and generator state 0. -/
theorem generate_sample_data_bounds_witness :
    1 ≤ 1
    ∧ (((generate_sample_data 1 ⟨0⟩).1.date.length = 1
       ∧ (generate_sample_data 1 ⟨0⟩).1.open_px.length = 1
       ∧ (generate_sample_data 1 ⟨0⟩).1.high.length = 1
       ∧ (generate_sample_data 1 ⟨0⟩).1.low.length = 1
       ∧ (generate_sample_data 1 ⟨0⟩).1.close.length = 1
       ∧ (generate_sample_data 1 ⟨0⟩).1.volume.length = 1)
      ∧ (∀ i, i < 1 →
          (generate_sample_data 1 ⟨0⟩).1.low.getD i 0
            ≤ (generate_sample_data 1 ⟨0⟩).1.close.getD i 0
          ∧ (generate_sample_data 1 ⟨0⟩).1.close.getD i 0
            ≤ (generate_sample_data 1 ⟨0⟩).1.high.getD i 0)) :=
  ⟨by decide, generate_sample_data_bounds 1 ⟨0⟩ (by decide)⟩

end TensorTrade
